import Mathlib

/-!
Shallow embedding of `src/movie_recommendation_platform/app.py`
(movie recommendation platform: similarity-based top-K recommendations
plus a cached, retrying poster-fetch client), together with proofs of the
specification's testable properties.

Conventions:
* Python's in-memory dict `poster_cache` is an insertion-ordered association
  list with unique keys (`dictInsert` reproduces dict assignment semantics).
* The network is an oracle `Nat → AttemptOutcome` giving the outcome of the
  n-th HTTP call (`requests.get`); `time.sleep` durations are recorded in
  order in `FetchState.sleeps`; `FetchState.calls` counts HTTP calls.
* Similarity scores (Python floats used only for comparison and copying)
  are rationals.
-/

namespace MovieRec

/-- A cache entry value: `some url` (resolved-present) or `none`
(resolved-absent, Python `None`). -/
abbrev CacheVal := Option String

/-- The in-memory `poster_cache` dict. -/
abbrev Cache := List (String × CacheVal)

/-- First-match lookup: Python `d[k]` / `k in d`. Keys are unique, so
first-match agrees with dict lookup. -/
def dictLookup {κ β : Type} [DecidableEq κ] : List (κ × β) → κ → Option β
  | [], _ => none
  | kv :: rest, k => if kv.1 = k then some kv.2 else dictLookup rest k

/-- Python dict assignment `d[k] = v`: update in place if the key exists,
otherwise append (insertion order preserved). -/
def dictInsert {κ β : Type} [DecidableEq κ] (d : List (κ × β)) (k : κ) (v : β) :
    List (κ × β) :=
  if d.any (fun kv => kv.1 = k) then d.map (fun kv => if kv.1 = k then (k, v) else kv)
  else d ++ [(k, v)]

def cacheLookup (c : Cache) (k : String) : Option CacheVal := dictLookup c k

def cacheInsert (c : Cache) (k : String) (v : CacheVal) : Cache := dictInsert c k v

/-- One HTTP response as `fetch_single_poster` observes it: the status code,
the parsed `Retry-After` header when present, and the optional `poster_path`
field of the JSON body. -/
structure HttpResponse where
  status : Nat
  retryAfter : Option Nat
  poster_path : Option String
deriving DecidableEq

/-- The outcome of one `requests.get` attempt. `otherError` covers any other
exception caught by the generic handler (e.g. a JSON parse failure). -/
inductive AttemptOutcome
  | response (r : HttpResponse)
  | timeout
  | requestError
  | otherError
deriving DecidableEq

/-- Result of a `fetch_single_poster` call: the returned value, the cache
left behind, the number of HTTP calls performed, and the sleeps in order. -/
structure FetchState where
  result : CacheVal
  cache : Cache
  calls : Nat
  sleeps : List Nat
deriving DecidableEq

def imageBase : String := "https://image.tmdb.org/t/p/w500"

/-- The retry loop of `fetch_single_poster` (`for attempt in range(max_retries)`),
with `fuel` the number of remaining attempts, so the current Python `attempt`
is `maxRetries - fuel` for the `fuel ≠ 0` cases. Faithful to the source:
an attempt with `attempt > 0` first sleeps `min(2 ^ attempt, 10)`; a 429
response sleeps the `Retry-After` value (default 5) and retries; a non-200,
non-429 status retries, except on the last attempt where it caches `none`
and returns `none`; a 200 response with a truthy `poster_path` caches and
returns the composed URL, with a falsy one it caches and returns `none`;
exceptions retry; exhausting the loop caches `none` and returns `none`. -/
def fetchAttempts (idStr : String) (oracle : Nat → AttemptOutcome) (maxRetries : Nat) :
    Cache → Nat → Nat → List Nat → FetchState
  | cache, 0, calls, sleeps => ⟨none, cacheInsert cache idStr none, calls, sleeps⟩
  | cache, fuel + 1, calls, sleeps =>
    let attempt := maxRetries - (fuel + 1)
    let sleeps1 := if 0 < attempt then sleeps ++ [min (2 ^ attempt) 10] else sleeps
    match oracle calls with
    | .response r =>
      if r.status = 429 then
        fetchAttempts idStr oracle maxRetries cache fuel (calls + 1)
          (sleeps1 ++ [r.retryAfter.getD 5])
      else if r.status ≠ 200 then
        if fuel = 0 then ⟨none, cacheInsert cache idStr none, calls + 1, sleeps1⟩
        else fetchAttempts idStr oracle maxRetries cache fuel (calls + 1) sleeps1
      else
        match r.poster_path with
        | some p =>
          if p = "" then ⟨none, cacheInsert cache idStr none, calls + 1, sleeps1⟩
          else
            ⟨some (imageBase ++ p), cacheInsert cache idStr (some (imageBase ++ p)),
              calls + 1, sleeps1⟩
        | none => ⟨none, cacheInsert cache idStr none, calls + 1, sleeps1⟩
    | _ => fetchAttempts idStr oracle maxRetries cache fuel (calls + 1) sleeps1

/-- `fetch_single_poster(movie_id, max_retries=3)`: cache-first check — a
cached non-`None` value is returned immediately with no HTTP call; a cached
`None` value or an absent key falls through to the retry loop. -/
def fetch_single_poster (movie_id : Nat) (cache : Cache) (oracle : Nat → AttemptOutcome)
    (maxRetries : Nat := 3) : FetchState :=
  let idStr := toString movie_id
  match cacheLookup cache idStr with
  | some (some u) => ⟨some u, cache, 0, []⟩
  | _ => fetchAttempts idStr oracle maxRetries cache maxRetries 0 []

/-- State threaded through `fetch_posters_sequential`: the `results` dict,
the cache, and the total HTTP calls so far (the oracle is indexed globally). -/
structure BatchState where
  results : List (Nat × CacheVal)
  cache : Cache
  calls : Nat
deriving DecidableEq

/-- One iteration of the `fetch_posters_sequential` loop: fetch one id and
store the outcome in the `results` dict (`results[movie_id] = poster_url`). -/
def batchStep (oracle : Nat → AttemptOutcome) (st : BatchState) (mid : Nat) : BatchState :=
  let fs := fetch_single_poster mid st.cache (fun n => oracle (st.calls + n)) 3
  ⟨dictInsert st.results mid fs.result, fs.cache, st.calls + fs.calls⟩

/-- `fetch_posters_sequential(movie_ids)`: sequentially fetches each id and
stores the outcome in the `results` dict. The 1-second pacing sleeps and the
periodic `save_cache()` calls do not affect the in-memory state and are not
tracked here. -/
def fetch_posters_sequential (movie_ids : List Nat) (cache : Cache)
    (oracle : Nat → AttemptOutcome) : BatchState :=
  movie_ids.foldl (batchStep oracle) ⟨[], cache, 0⟩

/-- JSON documents, as far as the cache file is concerned. The durable file
is modelled by the parsed document `json.dump` writes / `json.load` reads. -/
inductive Json
  | null
  | bool (b : Bool)
  | str (s : String)
  | num (n : Int)
  | arr (elems : List Json)
  | obj (members : List (String × Json))

def encodeVal : CacheVal → Json
  | none => .null
  | some s => .str s

/-- `save_cache()`: the JSON document written for the current cache
(`json.dump(poster_cache, f)`). -/
def save_cache (c : Cache) : Json := .obj (c.map (fun kv => (kv.1, encodeVal kv.2)))

def decodeVal : Json → Option CacheVal
  | .null => some none
  | .str s => some (some s)
  | _ => none

def decodeMembers : List (String × Json) → Option Cache
  | [] => some []
  | (k, j) :: rest => do
      let v ← decodeVal j
      let r ← decodeMembers rest
      pure ((k, v) :: r)

/-- `load_cache()`: `file = none` models a missing cache file (the cache is
left unchanged); a present file is the parsed JSON document. A document that
is not an object of string/null values models a corrupt or foreign file and
resets the cache to empty (the `except` branch). -/
def load_cache (file : Option Json) (current : Cache) : Cache :=
  match file with
  | none => current
  | some (.obj members) => (decodeMembers members).getD []
  | some _ => []

/-- One row of the `movies` dataframe. -/
structure Movie where
  movie_id : Nat
  title : String
deriving DecidableEq

/-- One element of the list `get_recommendations` returns. -/
structure RecEntry where
  title : String
  movie_id : Nat
  similarity_score : Rat
deriving DecidableEq

/-- The order Python's `sorted(..., reverse=True, key=lambda x: x[1])`
sorts by: descending similarity score. -/
def descRel (a b : Nat × Rat) : Prop := b.2 ≤ a.2

instance : DecidableRel descRel := fun a b => inferInstanceAs (Decidable (b.2 ≤ a.2))

instance : IsTotal (Nat × Rat) descRel := ⟨fun a b => le_total b.2 a.2⟩

instance : IsTrans (Nat × Rat) descRel := ⟨fun _ _ _ h1 h2 => le_trans h2 h1⟩

/-- Python's `sorted` is a stable sort; insertion sort with `descRel`
computes the same (unique) stable descending ordering: each element is
placed before the first already-sorted element of less-or-equal score, so
equal scores keep their original relative order. -/
def sortDesc (l : List (Nat × Rat)) : List (Nat × Rat) := List.insertionSort descRel l

/-- `get_recommendations(movie_title)`. The whole Python body is wrapped in
`try/except` returning `[]`: a title with no match (`IndexError` on
`.index[0]`), a row index out of range of `similarity`, or any `movies.iloc`
access out of range all yield `[]`, modelled by the `Option` matches and the
`all` guard. `distances.getD p.1 (0, 0)` is `distances[i[0]]`, always in
range because `p.1` indexes `row` and `distances` has `row`'s length. -/
def get_recommendations (movies : List Movie) (similarity : List (List Rat))
    (movie_title : String) : List RecEntry :=
  match movies.findIdx? (fun m => m.title == movie_title) with
  | none => []
  | some index =>
    match similarity.get? index with
    | none => []
    | some row =>
      let distances := sortDesc row.enum
      let picked := (distances.drop 1).take 5
      if picked.all (fun p => p.1 < movies.length) then
        picked.map (fun p =>
          { title := (movies.getD p.1 ⟨0, ""⟩).title
            movie_id := (movies.getD p.1 ⟨0, ""⟩).movie_id
            similarity_score := (distances.getD p.1 (0, 0)).2 })
      else []

/-! Concrete inputs for the specification's scenarios. Rationals are written
as explicit `num`/`den` literals so that every statement about them is
kernel-decidable; the lemmas `q1_2_eq`, `q9_10_eq`, `q1_10_eq` below identify
them with `1/2`, `9/10`, `1/10`. -/

def q1_2 : Rat := ⟨1, 2, by decide, by decide⟩

def q9_10 : Rat := ⟨9, 10, by decide, by decide⟩

def q1_10 : Rat := ⟨1, 10, by decide, by decide⟩

/-- An attempt outcome on which `fetch_single_poster` does not succeed:
any response with a status other than 200 (429 included), or any exception. -/
def isFailure : AttemptOutcome → Prop
  | .response r => r.status ≠ 200
  | _ => True

/-- The remote always answers 200 with poster path `/x.jpg`. -/
def okOracle : Nat → AttemptOutcome := fun _ => .response ⟨200, none, some "/x.jpg"⟩

/-- First call: HTTP 429 with `Retry-After: t`; afterwards 200 with path `p`. -/
def rateLimitThenOk (t : Nat) (p : String) : Nat → AttemptOutcome := fun n =>
  if n = 0 then .response ⟨429, some t, none⟩ else .response ⟨200, none, some p⟩

/-- First two calls time out; afterwards 200 with path `p`. -/
def timeoutsThenOk (p : String) : Nat → AttemptOutcome := fun n =>
  if n < 2 then .timeout else .response ⟨200, none, some p⟩

/-- The remote always answers with HTTP status `s` and an empty body. -/
def alwaysStatus (s : Nat) : Nat → AttemptOutcome := fun _ => .response ⟨s, none, none⟩

/-- The remote always answers 201 (a 2xx status) with poster path `/x.jpg`. -/
def status201Oracle : Nat → AttemptOutcome := fun _ => .response ⟨201, none, some "/x.jpg"⟩

/-- The value a 200 response's body resolves to: the composed URL for a
truthy `poster_path`, `none` for an empty or absent one. -/
def posterValue : Option String → CacheVal
  | some p => if p = "" then none else some (imageBase ++ p)
  | none => none

/-- The spec's tie-break scenario: catalog `[{1,A},{2,B},{3,C},{4,D}]`. -/
def C3movies : List Movie := [⟨1, "A"⟩, ⟨2, "B"⟩, ⟨3, "C"⟩, ⟨4, "D"⟩]

/-- Similarity matrix whose row for "A" is `[1.0, 0.9, 0.5, 0.9]`. -/
def C3sim : List (List Rat) :=
  [[1, q9_10, q1_2, q9_10], [q9_10, 1, q1_10, q1_10],
   [q1_2, q1_10, 1, q1_10], [q9_10, q1_10, q1_10, 1]]

/-- A seven-movie catalog (more than `k + 1 = 6` items). -/
def C2movies : List Movie :=
  [⟨1, "A"⟩, ⟨2, "B"⟩, ⟨3, "C"⟩, ⟨4, "D"⟩, ⟨5, "E"⟩, ⟨6, "F"⟩, ⟨7, "G"⟩]

/-- Row 1 (movie "B"): the diagonal entry `row[1] = 1` is a maximum of the
row, but only a non-strict one — `row[0] = 1` ties it. -/
def C2row : List Rat := [1, 1, q1_10, q1_10, q1_10, q1_10, q1_10]

def C2sim : List (List Rat) :=
  [[1, 1, q1_10, q1_10, q1_10, q1_10, q1_10], C2row,
   [q1_10, q1_10, 1, q1_10, q1_10, q1_10, q1_10],
   [q1_10, q1_10, q1_10, 1, q1_10, q1_10, q1_10],
   [q1_10, q1_10, q1_10, q1_10, 1, q1_10, q1_10],
   [q1_10, q1_10, q1_10, q1_10, q1_10, 1, q1_10],
   [q1_10, q1_10, q1_10, q1_10, q1_10, q1_10, 1]]

/-- A row whose diagonal entry (index 0) is the strict maximum. -/
def C2Wrow : List Rat := [1, q9_10, q1_2, q1_10, q1_10, q1_10, q1_10]

/-- Three-movie catalog for exhibiting the `similarity_score` defect. -/
def C9movies : List Movie := [⟨1, "A"⟩, ⟨2, "B"⟩, ⟨3, "C"⟩]

/-- Row for "A" is `[1, 0.5, 0.9]`: movie C (index 2) is the most similar. -/
def C9sim : List (List Rat) :=
  [[1, q1_2, q9_10], [q1_2, 1, q1_10], [q9_10, q1_10, 1]]

/-! ## Theorems -/

theorem q1_2_eq : q1_2 = 1 / 2 := by
  rw [q1_2, Rat.mk'_eq_divInt, Rat.divInt_eq_div]; norm_num

theorem q9_10_eq : q9_10 = 9 / 10 := by
  rw [q9_10, Rat.mk'_eq_divInt, Rat.divInt_eq_div]; norm_num

theorem q1_10_eq : q1_10 = 1 / 10 := by
  rw [q1_10, Rat.mk'_eq_divInt, Rat.divInt_eq_div]; norm_num

theorem dictLookup_map_update {κ β : Type} [DecidableEq κ]
    (d : List (κ × β)) (k : κ) (v : β) (h : d.any (fun kv => kv.1 = k) = true) :
    dictLookup (d.map (fun kv => if kv.1 = k then (k, v) else kv)) k = some v := by
  induction d with
  | nil => simp at h
  | cons hd tl ih =>
    by_cases hk : hd.1 = k
    · simp [dictLookup, hk]
    · simp only [List.any_cons, Bool.or_eq_true, decide_eq_true_eq] at h
      rcases h with h | h
      · exact absurd h hk
      · simpa [dictLookup, hk] using ih h

theorem dictLookup_append_single {κ β : Type} [DecidableEq κ]
    (d : List (κ × β)) (k : κ) (v : β) (h : ∀ kv ∈ d, kv.1 ≠ k) :
    dictLookup (d ++ [(k, v)]) k = some v := by
  induction d with
  | nil => simp [dictLookup]
  | cons hd tl ih =>
    have h1 : hd.1 ≠ k := h hd (List.mem_cons_self hd tl)
    simp only [List.cons_append, dictLookup, if_neg h1]
    exact ih (fun kv hm => h kv (List.mem_cons_of_mem hd hm))

/-- Writing a key then reading it back gives the written value. -/
theorem dictLookup_dictInsert_self {κ β : Type} [DecidableEq κ]
    (d : List (κ × β)) (k : κ) (v : β) :
    dictLookup (dictInsert d k v) k = some v := by
  unfold dictInsert
  split
  · exact dictLookup_map_update d k v (by assumption)
  · rename_i h
    refine dictLookup_append_single d k v ?_
    intro kv hm
    simp only [List.any_eq_true, decide_eq_true_eq, not_exists, not_and] at h
    exact h kv hm

theorem decodeVal_encodeVal (v : CacheVal) : decodeVal (encodeVal v) = some v := by
  cases v <;> rfl

theorem decodeMembers_encode (c : Cache) :
    decodeMembers (c.map (fun kv => (kv.1, encodeVal kv.2))) = some c := by
  induction c with
  | nil => rfl
  | cons hd tl ih => simp [decodeMembers, decodeVal_encodeVal, ih]

/-- C8: saving the cache to the durable store and loading it back reproduces
the identical key/value mapping (here: on the nose, key order included), for
every cache mapping string keys to URL strings or null. -/
theorem C8_save_load_roundtrip (c : Cache) (old : Cache) :
    load_cache (some (save_cache c)) old = c := by
  simp [load_cache, save_cache, decodeMembers_encode]

/-- Every exit of the retry loop has just written the returned value into
the cache under the fetched key. -/
theorem fetchAttempts_cache_result (idStr : String) (oracle : Nat → AttemptOutcome)
    (maxRetries : Nat) :
    ∀ fuel cache calls sleeps,
      cacheLookup (fetchAttempts idStr oracle maxRetries cache fuel calls sleeps).cache idStr =
        some (fetchAttempts idStr oracle maxRetries cache fuel calls sleeps).result := by
  intro fuel
  induction fuel with
  | zero =>
    intro cache calls sleeps
    simp [fetchAttempts, cacheLookup, cacheInsert, dictLookup_dictInsert_self]
  | succ n ih =>
    intro cache calls sleeps
    simp only [fetchAttempts]
    cases oracle calls with
    | response r =>
      by_cases h429 : r.status = 429
      · simpa [h429] using ih cache (calls + 1) _
      · by_cases h200 : r.status = 200
        · cases hp : r.poster_path with
          | some p =>
            by_cases hpe : p = ""
            · simp [h429, h200, hp, hpe, cacheLookup, cacheInsert, dictLookup_dictInsert_self]
            · simp [h429, h200, hp, hpe, cacheLookup, cacheInsert, dictLookup_dictInsert_self]
          | none => simp [h429, h200, hp, cacheLookup, cacheInsert, dictLookup_dictInsert_self]
        · by_cases hlast : n = 0
          · simp [h429, h200, hlast, cacheLookup, cacheInsert, dictLookup_dictInsert_self]
          · simpa [h429, h200, hlast] using ih cache (calls + 1) _
    | timeout => simpa using ih cache (calls + 1) _
    | requestError => simpa using ih cache (calls + 1) _
    | otherError => simpa using ih cache (calls + 1) _

/-- Whatever `fetch_single_poster` returns, the cache it leaves behind maps
the fetched key to exactly the returned value. -/
theorem fetch_cache_result (movie_id : Nat) (cache : Cache)
    (oracle : Nat → AttemptOutcome) (maxRetries : Nat) :
    cacheLookup (fetch_single_poster movie_id cache oracle maxRetries).cache
        (toString movie_id) =
      some (fetch_single_poster movie_id cache oracle maxRetries).result := by
  unfold fetch_single_poster
  cases h : cacheLookup cache (toString movie_id) with
  | none => simpa [h] using fetchAttempts_cache_result _ oracle maxRetries maxRetries cache 0 []
  | some cv =>
    cases cv with
    | none => simpa [h] using fetchAttempts_cache_result _ oracle maxRetries maxRetries cache 0 []
    | some u => simp [h]

/-- C10: whenever `fetch_single_poster(k)` returns a value `r`, the cache it
leaves behind maps `str(k)` to exactly `r` — every return path either read
that entry from the cache or wrote it immediately before returning. -/
theorem C10_return_agrees_with_cache (movie_id : Nat) (cache : Cache)
    (oracle : Nat → AttemptOutcome) (maxRetries : Nat) :
    cacheLookup (fetch_single_poster movie_id cache oracle maxRetries).cache
        (toString movie_id) =
      some (fetch_single_poster movie_id cache oracle maxRetries).result :=
  fetch_cache_result movie_id cache oracle maxRetries

/-- A cached resolved-present entry is returned immediately: no HTTP call,
no sleep, cache unchanged. -/
theorem fetch_hit (movie_id : Nat) (cache : Cache) (oracle : Nat → AttemptOutcome)
    (maxRetries : Nat) (u : String)
    (h : cacheLookup cache (toString movie_id) = some (some u)) :
    fetch_single_poster movie_id cache oracle maxRetries = ⟨some u, cache, 0, []⟩ := by
  simp [fetch_single_poster, h]

/-- C1 (counterexample): key "7" has a resolved-absent (null) cached entry,
yet `fetch_single_poster` performs one remote HTTP call instead of zero and
returns a freshly fetched URL instead of the cached value. -/
theorem C1_counterexample :
    cacheLookup [("7", none)] "7" = some none ∧
    (fetch_single_poster 7 [("7", none)] okOracle 3).calls = 1 ∧
    (fetch_single_poster 7 [("7", none)] okOracle 3).result =
      some "https://image.tmdb.org/t/p/w500/x.jpg" := by
  decide

/-- C1 (amended): a resolved-present cache entry is returned immediately with
zero remote calls and the cache unchanged; and after a first call cached a
resolved-present result, a second fetch on that key performs zero additional
remote calls. (A resolved-absent entry does not short-circuit the fetch.) -/
theorem C1_cache_hit_present (movie_id : Nat) (cache c2 : Cache)
    (oracle oracle2 : Nat → AttemptOutcome) (mr mr2 : Nat) (u v : String)
    (h : cacheLookup cache (toString movie_id) = some (some u))
    (h2 : (fetch_single_poster movie_id c2 oracle mr).result = some v) :
    fetch_single_poster movie_id cache oracle mr = ⟨some u, cache, 0, []⟩ ∧
    (fetch_single_poster movie_id (fetch_single_poster movie_id c2 oracle mr).cache
        oracle2 mr2).calls = 0 := by
  refine ⟨fetch_hit movie_id cache oracle mr u h, ?_⟩
  have hagree := fetch_cache_result movie_id c2 oracle mr
  rw [h2] at hagree
  rw [fetch_hit movie_id _ oracle2 mr2 v hagree]

theorem C1_witness :
    fetch_single_poster 7 [("7", some "u")] okOracle 3 =
      ⟨some "u", [("7", some "u")], 0, []⟩ ∧
    (fetch_single_poster 7 (fetch_single_poster 7 [] okOracle 3).cache okOracle 3).calls = 0 :=
  C1_cache_hit_present 7 [("7", some "u")] [] okOracle okOracle 3 3 "u"
    "https://image.tmdb.org/t/p/w500/x.jpg" (by decide) (by decide)

/-- On failure-only oracles the retry loop consumes all its fuel, makes one
HTTP call per attempt, caches `none` and returns `none`. -/
theorem fetchAttempts_all_fail (idStr : String) (oracle : Nat → AttemptOutcome)
    (maxRetries : Nat) (hf : ∀ n, isFailure (oracle n)) :
    ∀ fuel cache calls sleeps, ∃ s,
      fetchAttempts idStr oracle maxRetries cache fuel calls sleeps =
        ⟨none, cacheInsert cache idStr none, calls + fuel, s⟩ := by
  intro fuel
  induction fuel with
  | zero => intro cache calls sleeps; exact ⟨sleeps, by simp [fetchAttempts]⟩
  | succ n ih =>
    intro cache calls sleeps
    have hadd : calls + 1 + n = calls + (n + 1) := by omega
    simp only [fetchAttempts]
    cases ho : oracle calls with
    | response r =>
      have hr : r.status ≠ 200 := by simpa [ho, isFailure] using hf calls
      dsimp only
      by_cases h429 : r.status = 429
      · rw [if_pos h429]
        exact hadd ▸ ih cache (calls + 1) _
      · rw [if_neg h429, if_pos hr]
        by_cases hn : n = 0
        · subst hn
          rw [if_pos rfl]
          exact ⟨_, rfl⟩
        · rw [if_neg hn]
          exact hadd ▸ ih cache (calls + 1) _
    | timeout => exact hadd ▸ ih cache (calls + 1) _
    | requestError => exact hadd ▸ ih cache (calls + 1) _
    | otherError => exact hadd ▸ ih cache (calls + 1) _

/-- C5: for a key without a resolved-present cache entry, when every attempt
fails (any mix of 429s, non-200 statuses, timeouts, request errors), the
fetch makes exactly `max_retries` HTTP calls, stores a resolved-absent
(`none`) entry for the key, and returns `none`. -/
theorem C5_exhausted_retries_cache_absent (movie_id : Nat) (cache : Cache)
    (oracle : Nat → AttemptOutcome) (maxRetries : Nat)
    (hc : cacheLookup cache (toString movie_id) = none ∨
      cacheLookup cache (toString movie_id) = some none)
    (hf : ∀ n, isFailure (oracle n)) :
    (fetch_single_poster movie_id cache oracle maxRetries).result = none ∧
    cacheLookup (fetch_single_poster movie_id cache oracle maxRetries).cache
        (toString movie_id) = some none ∧
    (fetch_single_poster movie_id cache oracle maxRetries).calls = maxRetries := by
  obtain ⟨s, hs⟩ :=
    fetchAttempts_all_fail (toString movie_id) oracle maxRetries hf maxRetries cache 0 []
  have hfetch : fetch_single_poster movie_id cache oracle maxRetries =
      ⟨none, cacheInsert cache (toString movie_id) none, 0 + maxRetries, s⟩ := by
    rcases hc with h | h <;> simp [fetch_single_poster, h, hs]
  rw [hfetch]
  refine ⟨rfl, ?_, by simp⟩
  simpa [cacheLookup, cacheInsert] using
    dictLookup_dictInsert_self cache (toString movie_id) none

theorem C5_witness :
    (fetch_single_poster 5 [] (alwaysStatus 404) 3).result = none ∧
    cacheLookup (fetch_single_poster 5 [] (alwaysStatus 404) 3).cache
        (toString 5) = some none ∧
    (fetch_single_poster 5 [] (alwaysStatus 404) 3).calls = 3 :=
  C5_exhausted_retries_cache_absent 5 [] (alwaysStatus 404) 3 (Or.inl (by decide))
    (fun _ => by show (404 : Nat) ≠ 200; decide)

/-- C6 (counterexample): a 2xx status other than exactly 200 — here 201 —
with `poster_path` present does not yield the composed URL: the code treats
it as an HTTP error, retries three times and resolves to `none`. -/
theorem C6_counterexample :
    (fetch_single_poster 5 [] status201Oracle 3).result = none ∧
    (fetch_single_poster 5 [] status201Oracle 3).result ≠
      some "https://image.tmdb.org/t/p/w500/x.jpg" ∧
    (fetch_single_poster 5 [] status201Oracle 3).calls = 3 := by
  decide

/-- C6 (amended): on an HTTP status of exactly 200, a present non-empty
`poster_path` is cached and returned as the fixed image base plus `/w500`
plus the path, while an empty or absent `poster_path` caches a
resolved-absent entry and returns `none` — in one HTTP call, for a key
without a cache entry. -/
theorem C6_success_response (movie_id : Nat) (cache : Cache)
    (oracle : Nat → AttemptOutcome) (ra : Option Nat) (pp : Option String) (mr : Nat)
    (hc : cacheLookup cache (toString movie_id) = none)
    (h0 : oracle 0 = .response ⟨200, ra, pp⟩)
    (hmr : 0 < mr) :
    fetch_single_poster movie_id cache oracle mr =
      ⟨posterValue pp, cacheInsert cache (toString movie_id) (posterValue pp), 1, []⟩ ∧
    cacheLookup (fetch_single_poster movie_id cache oracle mr).cache
        (toString movie_id) = some (posterValue pp) := by
  cases mr with
  | zero => omega
  | succ k =>
    have hstep : fetch_single_poster movie_id cache oracle (k + 1) =
        fetchAttempts (toString movie_id) oracle (k + 1) cache (k + 1) 0 [] := by
      simp [fetch_single_poster, hc]
    have hrun : fetchAttempts (toString movie_id) oracle (k + 1) cache (k + 1) 0 [] =
        ⟨posterValue pp, cacheInsert cache (toString movie_id) (posterValue pp), 1, []⟩ := by
      simp only [fetchAttempts, h0, Nat.sub_self]
      cases pp with
      | none => simp [posterValue]
      | some p =>
        by_cases hpe : p = "" <;> simp [posterValue, hpe]
    refine ⟨hstep.trans hrun, ?_⟩
    rw [hstep, hrun]
    simpa [cacheLookup, cacheInsert] using
      dictLookup_dictInsert_self cache (toString movie_id) (posterValue pp)

theorem C6_witness :
    fetch_single_poster 5 [] okOracle 3 =
      ⟨posterValue (some "/x.jpg"),
        cacheInsert [] (toString 5) (posterValue (some "/x.jpg")), 1, []⟩ ∧
    cacheLookup (fetch_single_poster 5 [] okOracle 3).cache (toString 5) =
      some (posterValue (some "/x.jpg")) :=
  C6_success_response 5 [] okOracle none (some "/x.jpg") 3 (by decide) rfl (by decide)

/-- C4 (counterexample): after two network-level failures (timeouts) the
observed retry delays are 2 s then 4 s — exponential backoff, not the fixed
short delay the claim states for network-level errors. -/
theorem C4_counterexample :
    (fetch_single_poster 5 [] (timeoutsThenOk "/x.jpg") 3).sleeps = [2, 4] ∧
    (2 : Nat) ≠ 4 := by
  decide

/-- C4 (amended): on HTTP 429 the code sleeps the `Retry-After` value and the
next attempt adds the backoff `min(2^attempt, 10)`, so the total wait is at
least the server-supplied value and the fetched URL is returned; on
network-level errors the retry delay is the exponential backoff
`min(2^attempt, 10)` (not a fixed delay); on any other non-success status it
retries up to `max_retries` (3) and then gives up with `none`. -/
theorem C4_retry_delays (t : Nat) (p : String) (s : Nat)
    (hp : p ≠ "") (hs200 : s ≠ 200) (hs429 : s ≠ 429) :
    fetch_single_poster 5 [] (rateLimitThenOk t p) 3 =
      ⟨some (imageBase ++ p),
        cacheInsert [] (toString 5) (some (imageBase ++ p)), 2, [t, min (2 ^ 1) 10]⟩ ∧
    t ≤ (fetch_single_poster 5 [] (rateLimitThenOk t p) 3).sleeps.sum ∧
    (fetch_single_poster 5 [] (timeoutsThenOk p) 3).sleeps =
      [min (2 ^ 1) 10, min (2 ^ 2) 10] ∧
    (fetch_single_poster 5 [] (timeoutsThenOk p) 3).result = some (imageBase ++ p) ∧
    (fetch_single_poster 5 [] (alwaysStatus s) 3).result = none ∧
    (fetch_single_poster 5 [] (alwaysStatus s) 3).calls = 3 := by
  have h1 : fetch_single_poster 5 [] (rateLimitThenOk t p) 3 =
      ⟨some (imageBase ++ p),
        cacheInsert [] (toString 5) (some (imageBase ++ p)), 2, [t, 2]⟩ := by
    simp [fetch_single_poster, cacheLookup, dictLookup, fetchAttempts, rateLimitThenOk, hp]
  have h2 : fetch_single_poster 5 [] (timeoutsThenOk p) 3 =
      ⟨some (imageBase ++ p),
        cacheInsert [] (toString 5) (some (imageBase ++ p)), 3, [2, 4]⟩ := by
    simp [fetch_single_poster, cacheLookup, dictLookup, fetchAttempts, timeoutsThenOk, hp]
  have h3 : fetch_single_poster 5 [] (alwaysStatus s) 3 =
      ⟨none, cacheInsert [] (toString 5) none, 3, [2, 4]⟩ := by
    simp [fetch_single_poster, cacheLookup, dictLookup, fetchAttempts, alwaysStatus,
      hs200, hs429]
  refine ⟨by rw [h1]; norm_num, ?_, by rw [h2]; norm_num, by rw [h2], by rw [h3], by rw [h3]⟩
  rw [h1]
  simp [List.sum_cons]

theorem C4_witness :
    fetch_single_poster 5 [] (rateLimitThenOk 2 "/x.jpg") 3 =
      ⟨some (imageBase ++ "/x.jpg"),
        cacheInsert [] (toString 5) (some (imageBase ++ "/x.jpg")), 2,
        [2, min (2 ^ 1) 10]⟩ ∧
    2 ≤ (fetch_single_poster 5 [] (rateLimitThenOk 2 "/x.jpg") 3).sleeps.sum ∧
    (fetch_single_poster 5 [] (timeoutsThenOk "/x.jpg") 3).sleeps =
      [min (2 ^ 1) 10, min (2 ^ 2) 10] ∧
    (fetch_single_poster 5 [] (timeoutsThenOk "/x.jpg") 3).result =
      some (imageBase ++ "/x.jpg") ∧
    (fetch_single_poster 5 [] (alwaysStatus 404) 3).result = none ∧
    (fetch_single_poster 5 [] (alwaysStatus 404) 3).calls = 3 :=
  C4_retry_delays 2 "/x.jpg" 404 (by decide) (by decide) (by decide)

theorem keys_dictInsert {κ β : Type} [DecidableEq κ] (d : List (κ × β)) (k : κ) (v : β) :
    (dictInsert d k v).map Prod.fst =
      if d.any (fun kv => kv.1 = k) then d.map Prod.fst else d.map Prod.fst ++ [k] := by
  unfold dictInsert
  split
  · rw [List.map_map]
    refine List.map_congr_left ?_
    intro kv hm
    by_cases hk : kv.1 = k
    · simp [hk]
    · simp [hk]
  · simp

theorem keys_dictInsert_nodup {κ β : Type} [DecidableEq κ] (d : List (κ × β)) (k : κ)
    (v : β) (h : (d.map Prod.fst).Nodup) : ((dictInsert d k v).map Prod.fst).Nodup := by
  rw [keys_dictInsert]
  split
  · exact h
  · rename_i hany
    simp only [List.any_eq_true, decide_eq_true_eq, not_exists, not_and] at hany
    rw [List.nodup_append]
    refine ⟨h, List.nodup_singleton k, ?_⟩
    intro a ha hb
    simp only [List.mem_singleton] at hb
    obtain ⟨kv, hkv, rfl⟩ := List.mem_map.mp ha
    exact hany kv hkv hb

theorem mem_keys_dictInsert {κ β : Type} [DecidableEq κ] (d : List (κ × β)) (k : κ)
    (v : β) (x : κ) :
    x ∈ (dictInsert d k v).map Prod.fst ↔ x ∈ d.map Prod.fst ∨ x = k := by
  rw [keys_dictInsert]
  split
  · rename_i h
    constructor
    · exact Or.inl
    · rintro (hx | rfl)
      · exact hx
      · simp only [List.any_eq_true, decide_eq_true_eq] at h
        obtain ⟨kv, hm, hk⟩ := h
        exact List.mem_map.mpr ⟨kv, hm, hk⟩
  · simp

/-- Keys of the batch `results` dict: no duplicates, and exactly the keys of
the initial dict plus the processed ids. -/
theorem batch_foldl_keys (oracle : Nat → AttemptOutcome) (ids : List Nat) :
    ∀ st : BatchState,
      ((st.results.map Prod.fst).Nodup →
        ((ids.foldl (batchStep oracle) st).results.map Prod.fst).Nodup) ∧
      (∀ k, k ∈ (ids.foldl (batchStep oracle) st).results.map Prod.fst ↔
        k ∈ st.results.map Prod.fst ∨ k ∈ ids) := by
  induction ids with
  | nil => intro st; simp
  | cons hd tl ih =>
    intro st
    simp only [List.foldl_cons]
    have hres : (batchStep oracle st hd).results =
        dictInsert st.results hd
          ((fetch_single_poster hd st.cache (fun n => oracle (st.calls + n)) 3).result) :=
      rfl
    obtain ⟨ihn, ihm⟩ := ih (batchStep oracle st hd)
    constructor
    · intro hn
      exact ihn (by rw [hres]; exact keys_dictInsert_nodup _ _ _ hn)
    · intro k
      rw [ihm k, hres, mem_keys_dictInsert]
      simp only [List.mem_cons]
      tauto

/-- C7: every key of the input sequence appears exactly once in the mapping
`fetch_posters_sequential` returns, whatever the cache contents and however
the individual fetches fare; and the empty sequence yields the empty
mapping. -/
theorem C7_every_key_once (movie_ids : List Nat) (cache : Cache)
    (oracle : Nat → AttemptOutcome) (k : Nat) (hk : k ∈ movie_ids) :
    ((fetch_posters_sequential movie_ids cache oracle).results.map Prod.fst).count k = 1 ∧
    fetch_posters_sequential [] cache oracle = ⟨[], cache, 0⟩ := by
  obtain ⟨hn, hm⟩ := batch_foldl_keys oracle movie_ids ⟨[], cache, 0⟩
  refine ⟨?_, rfl⟩
  have hnodup :
      ((fetch_posters_sequential movie_ids cache oracle).results.map Prod.fst).Nodup :=
    hn (by simp)
  have hmem :
      k ∈ (fetch_posters_sequential movie_ids cache oracle).results.map Prod.fst :=
    (hm k).mpr (Or.inr hk)
  exact List.count_eq_one_of_mem hnodup hmem

theorem C7_witness :
    ((fetch_posters_sequential [3, 4] [] okOracle).results.map Prod.fst).count 3 = 1 ∧
    fetch_posters_sequential [] [] okOracle = ⟨[], [], 0⟩ :=
  C7_every_key_once [3, 4] [] okOracle 3 (by decide)

theorem sortDesc_perm (l : List (Nat × Rat)) : (sortDesc l).Perm l :=
  List.perm_insertionSort descRel l

theorem sortDesc_sorted (l : List (Nat × Rat)) : (sortDesc l).Sorted descRel :=
  List.sorted_insertionSort descRel l

/-- Two positions of a list, in order, form a sublist. -/
theorem pair_sublist_of_get {α : Type} : ∀ (L : List α) (i j : Nat) (a b : α),
    i < j → L.get? i = some a → L.get? j = some b → [a, b].Sublist L := by
  intro L
  induction L with
  | nil =>
    intro i j a b hij ha hb
    simp at ha
  | cons hd tl ih =>
    intro i j a b hij ha hb
    cases i with
    | zero =>
      cases j with
      | zero => omega
      | succ j' =>
        simp only [List.get?] at ha hb
        injection ha with ha
        subst ha
        exact (List.singleton_sublist.mpr (List.get?_mem hb)).cons₂ hd
    | succ i' =>
      cases j with
      | zero => omega
      | succ j' =>
        simp only [List.get?] at ha hb
        exact (ih i' j' a b (by omega) ha hb).cons hd

theorem pair_sublist_enum (l : List Rat) (i j : Nat) (x y : Rat)
    (hij : i < j) (hi : l.get? i = some x) (hj : l.get? j = some y) :
    [(i, x), (j, y)].Sublist l.enum := by
  refine pair_sublist_of_get l.enum i j (i, x) (j, y) hij ?_ ?_
  · rw [List.get?_eq_getElem?, List.getElem?_enum, ← List.get?_eq_getElem?, hi]
    rfl
  · rw [List.get?_eq_getElem?, List.getElem?_enum, ← List.get?_eq_getElem?, hj]
    rfl

/-- If one element strictly dominates every other, the descending sort
starts with it. -/
theorem sortDesc_head_of_strict_max (l : List (Nat × Rat)) (x : Nat × Rat)
    (hx : x ∈ l) (hmax : ∀ y ∈ l, y ≠ x → y.2 < x.2) :
    ∃ t, sortDesc l = x :: t := by
  have hxs : x ∈ sortDesc l := (sortDesc_perm l).mem_iff.mpr hx
  cases hs : sortDesc l with
  | nil => rw [hs] at hxs; simp at hxs
  | cons h t =>
    rw [hs] at hxs
    by_cases hhx : h = x
    · exact ⟨t, by rw [hhx]⟩
    · exfalso
      have hhl : h ∈ l := (sortDesc_perm l).subset (hs ▸ List.mem_cons_self h t)
      have hlt : h.2 < x.2 := hmax h hhl hhx
      have hxt : x ∈ t := by
        rcases List.mem_cons.mp hxs with h1 | h1
        · exact absurd h1.symm hhx
        · exact h1
      have hsor := sortDesc_sorted l
      rw [hs] at hsor
      have hle : x.2 ≤ h.2 := List.rel_of_sorted_cons hsor x hxt
      exact absurd hlt (not_lt.mpr hle)

/-- C3: when two candidates share an identical similarity score, the stable
descending sort keeps them in ascending original catalog-index order, so the
ranking is deterministic; concretely, on catalog `[A, B, C, D]` with row
`[1.0, 0.9, 0.5, 0.9]` for "A", the two highest-ranked recommendations are
"B" then "D". -/
theorem C3_tie_break_ascending_index (row : List Rat) (i j : Nat) (s : Rat)
    (hij : i < j) (hi : row.get? i = some s) (hj : row.get? j = some s) :
    [(i, s), (j, s)].Sublist (sortDesc row.enum) ∧
    ((get_recommendations C3movies C3sim "A").map RecEntry.title).take 2 = ["B", "D"] := by
  constructor
  · exact List.pair_sublist_insertionSort (le_refl s)
      (pair_sublist_enum row i j s s hij hi hj)
  · decide

theorem C3_witness :
    [(1, q9_10), (3, q9_10)].Sublist (sortDesc ([1, q9_10, q1_2, q9_10] : List Rat).enum) ∧
    ((get_recommendations C3movies C3sim "A").map RecEntry.title).take 2 = ["B", "D"] :=
  C3_tie_break_ascending_index [1, q9_10, q1_2, q9_10] 1 3 q9_10 (by decide) (by decide)
    (by decide)

/-- C9: the `similarity_score` field does not carry the score the entry was
ranked by. On the catalog `[A, B, C]` with row `[1, 0.5, 0.9]` for "A", the
top recommendation is "C" (ranked by similarity 0.9 = `q9_10`), yet its
`similarity_score` field holds 0.5 — `distances[i[0]][1]` indexes the sorted
list by catalog position instead of taking the entry's own score — and the
second entry "B" (similarity 0.5) reports 0.9. -/
theorem C9_similarity_score_mismatch :
    get_recommendations C9movies C9sim "A" =
      [⟨"C", 3, q1_2⟩, ⟨"B", 2, q9_10⟩] ∧
    C9sim.getD 0 [] = [1, q1_2, q9_10] ∧
    q1_2 ≠ q9_10 ∧ q1_2 = 1 / 2 ∧ q9_10 = 9 / 10 :=
  ⟨by decide, by decide, by decide, q1_2_eq, q9_10_eq⟩

/-- C2 (counterexample): under the claim's preconditions as stated —
`matrix[1][1] = 1` is a maximum of row 1 (though tied with `matrix[1][0]`)
and the catalog has 7 > 6 items — the query for "B" returns "B" itself
among the results: a non-strict row maximum does not guarantee
self-exclusion. -/
theorem C2_counterexample :
    (C2sim.getD 1 []).getD 1 0 = 1 ∧
    ((C2sim.getD 1 []).all (fun v => v ≤ 1)) = true ∧
    C2movies.length = 7 ∧
    (C2movies.getD 1 ⟨0, ""⟩).title = "B" ∧
    ((get_recommendations C2movies C2sim "B").map RecEntry.title).contains "B" = true := by
  decide

/-- C2 (amended): when the diagonal entry is the *strict* maximum of its row,
the catalog has more than `k + 1 = 6` items, titles are unique, and the row
matches the catalog in length, `get_recommendations` returns exactly 5
entries, none of which is the queried movie itself. -/
theorem C2_top5_excludes_self (movies : List Movie) (similarity : List (List Rat))
    (i : Nat) (row : List Rat) (s : Rat)
    (hi : i < movies.length)
    (hrow : similarity.get? i = some row)
    (hlen : row.length = movies.length)
    (hself : row.get? i = some s)
    (hmax : ∀ y ∈ row.enum, y.1 ≠ i → y.2 < s)
    (hfind : movies.findIdx? (fun m => m.title == (movies.getD i ⟨0, ""⟩).title) = some i)
    (hbig : 6 < movies.length)
    (htitle : ∀ j, j < movies.length →
      (movies.getD j ⟨0, ""⟩).title = (movies.getD i ⟨0, ""⟩).title → j = i) :
    (get_recommendations movies similarity (movies.getD i ⟨0, ""⟩).title).length = 5 ∧
    ((get_recommendations movies similarity (movies.getD i ⟨0, ""⟩).title).all
      (fun e => e.title != (movies.getD i ⟨0, ""⟩).title)) = true := by
  have hxe : (i, s) ∈ row.enum :=
    List.mk_mem_enum_iff_getElem?.mpr (by rw [← List.get?_eq_getElem?]; exact hself)
  have hmax' : ∀ y ∈ row.enum, y ≠ (i, s) → y.2 < s := by
    intro y hy hne
    by_cases hji : y.1 = i
    · have hy' : row.get? y.1 = some y.2 := by
        rw [List.get?_eq_getElem?]
        exact List.mem_enum_iff_getElem?.mp hy
      rw [hji, hself] at hy'
      injection hy' with h2
      exact absurd (Prod.ext_iff.mpr ⟨hji, h2.symm⟩) hne
    · exact hmax y hy hji
  obtain ⟨tail, hsort⟩ := sortDesc_head_of_strict_max row.enum (i, s) hxe hmax'
  have hlen_sort : (sortDesc row.enum).length = row.length := by
    rw [(sortDesc_perm row.enum).length_eq, List.enum_length]
  have htail_len : tail.length + 1 = row.length := by
    rw [hsort] at hlen_sort
    simpa using hlen_sort
  have h5 : 5 ≤ tail.length := by omega
  have hnodup : ((sortDesc row.enum).map Prod.fst).Nodup :=
    ((sortDesc_perm row.enum).map Prod.fst).nodup_iff.mpr (List.nodup_enum_map_fst row)
  have hmem_tail : ∀ y ∈ tail, y.1 ≠ i ∧ y.1 < movies.length := by
    intro y hy
    have hyenum : y ∈ row.enum := (sortDesc_perm row.enum).subset
      (by rw [hsort]; exact List.mem_cons_of_mem _ hy)
    have hylt : y.1 < row.length := by
      obtain ⟨h2, -⟩ := List.getElem?_eq_some.mp (List.mem_enum_iff_getElem?.mp hyenum)
      exact List.enum_length ▸ h2
    refine ⟨?_, hlen ▸ hylt⟩
    rw [hsort] at hnodup
    simp only [List.map_cons, List.nodup_cons] at hnodup
    intro he
    exact hnodup.1 (he ▸ List.mem_map_of_mem Prod.fst hy)
  have hdrop : (sortDesc row.enum).drop 1 = tail := by rw [hsort]; rfl
  have hall : ((tail.take 5).all (fun p => decide (p.1 < movies.length))) = true := by
    rw [List.all_eq_true]
    intro p hp
    simpa using (hmem_tail p (List.mem_of_mem_take hp)).2
  have hgr : get_recommendations movies similarity (movies.getD i ⟨0, ""⟩).title =
      (tail.take 5).map (fun p =>
        ⟨(movies.getD p.1 ⟨0, ""⟩).title, (movies.getD p.1 ⟨0, ""⟩).movie_id,
          ((sortDesc row.enum).getD p.1 (0, 0)).2⟩) := by
    unfold get_recommendations
    rw [hfind]
    dsimp only
    rw [hrow]
    dsimp only
    rw [hdrop, if_pos hall]
  constructor
  · rw [hgr, List.length_map, List.length_take]
    exact min_eq_left h5
  · rw [hgr, List.all_eq_true]
    intro e he
    obtain ⟨p, hp, rfl⟩ := List.mem_map.mp he
    obtain ⟨hne, hlt⟩ := hmem_tail p (List.mem_of_mem_take hp)
    simp only [bne_iff_ne, ne_eq]
    intro heq
    exact hne (htitle p.1 hlt heq)

theorem C2_witness :
    (get_recommendations C2movies [C2Wrow] (C2movies.getD 0 ⟨0, ""⟩).title).length = 5 ∧
    ((get_recommendations C2movies [C2Wrow] (C2movies.getD 0 ⟨0, ""⟩).title).all
      (fun e => e.title != (C2movies.getD 0 ⟨0, ""⟩).title)) = true :=
  C2_top5_excludes_self C2movies [C2Wrow] 0 C2Wrow 1 (by decide) (by decide) (by decide)
    (by decide) (by decide) (by decide) (by decide) (by decide)

end MovieRec
